import Mathlib

/-!
Verification development for the asynchronous file i/o dispatcher of
`triplegit/src/async_file_io.cpp` and the `file_handle` operations of
`include/boost/afio/v2.0/file_handle.hpp`.

The dispatcher registry, id allocation, dependency chaining and the platform
primitives are embedded shallowly: the registry is an association list from
operation ids to operation records, machine `size_t` arithmetic is `Nat`
with explicit reduction modulo `2 ^ 64`, and fallible code returns `Except`.
Futures, promises and the thread pool are not modelled structurally; what is
modelled is every registry and counter mutation the source performs.
-/

/-- The modulus of `size_t` arithmetic (64-bit build). -/
def USIZE : Nat := 2 ^ 64

/-- Operation kind tags, from `enum class OpType` in `async_file_io.cpp`. -/
inductive OpType where
  | Unknown
  | UserCompletion
  | dir
  | rmdir
  | file
  | rmfile
  | sync
  | close
  | read
  | write
deriving DecidableEq

/-- One entry of the operation registry (`struct async_file_io_dispatcher_op`):
the op kind, whether a detached promise was attached, and the ordered list of
chained child ids (`completions`, each source entry pairs the child id with the
bound thunk; only the id is structural). -/
structure OpRecord where
  optype : OpType
  detached : Bool
  completions : List Nat
deriving DecidableEq

/-- Dispatcher private state (`struct async_file_io_dispatcher_base_p`):
the monotonic id counter and the registry of currently executing ops.
The `unordered_map` is modelled as an association list with unique keys. -/
structure DState where
  monotoniccount : Nat
  ops : List (Nat × OpRecord)
deriving DecidableEq

/-- `p->ops.find(id)` on the association-list registry. -/
def lookupOp (id : Nat) : List (Nat × OpRecord) → Option OpRecord
  | [] => none
  | kr :: rest => if kr.1 = id then some kr.2 else lookupOp id rest

/-- `dep->second.completions.push_back(boundf)`: append `child` to the
completion list of the entry keyed `id`. -/
def pushCompletion (id child : Nat) (ops : List (Nat × OpRecord)) : List (Nat × OpRecord) :=
  ops.map (fun kr =>
    if kr.1 = id then (kr.1, ⟨kr.2.optype, kr.2.detached, kr.2.completions ++ [child]⟩) else kr)

/-- `dep->second.completions.pop_back()`: drop the last completion of the
entry keyed `id` (the undo action of `pushCompletion`). -/
def popCompletion (id : Nat) (ops : List (Nat × OpRecord)) : List (Nat × OpRecord) :=
  ops.map (fun kr =>
    if kr.1 = id then (kr.1, ⟨kr.2.optype, kr.2.detached, kr.2.completions.dropLast⟩) else kr)

/-- `p->ops.erase(it)` for the entry keyed `id` (keys are unique). -/
def eraseOp (id : Nat) (ops : List (Nat × OpRecord)) : List (Nat × OpRecord) :=
  ops.filter (fun kr => kr.1 != id)

/-- Id allocation, `while(!(thisid=++p->monotoniccount));` on a `size_t`
counter: increment modulo `2 ^ 64`, and when the increment wraps to zero
increment once more, so zero (the no-precondition sentinel) is skipped. -/
def allocId (c : Nat) : Nat :=
  if (c + 1) % USIZE = 0 then (c + 2) % USIZE else (c + 1) % USIZE

/-- `async_file_io_dispatcher_base::chain_async_op`, success path: allocate
the next id; if the precondition id is nonzero and still registered, append
the new id to its completion list (otherwise the bound thunk is enqueued
immediately, which has no registry effect); insert a fresh record under the
new id. The detached promise created for `detachedfuture` ops right after
insertion is recorded as the `detached` flag of the inserted record. -/
def chain_async_op (optype : OpType) (detachedfuture : Bool) (pre : Nat) (st : DState) :
    Nat × DState :=
  let thisid := allocId st.monotoniccount
  let done := pre != 0 && (lookupOp pre st.ops).isSome
  let ops1 := if done then pushCompletion pre thisid st.ops else st.ops
  (thisid, ⟨thisid, ops1 ++ [(thisid, ⟨optype, detachedfuture, []⟩)]⟩)

/-- The failure points of `chain_async_op` that its scoped undo actions
(`undep`, `unopsit`) guard: a throw from the immediate-enqueue path (the
precondition future `.get()` or the pool enqueue, both run only when the op
was not chained), a throw from the registry insertion itself, and a throw
from creating the detached promise after insertion. -/
inductive FailPoint where
  | noFail
  | atEnqueue
  | atInsert
  | atDetach
deriving DecidableEq

/-- `chain_async_op` with an injected failure point. The error value is the
dispatcher state after the scoped undo actions have run: `unopsit` erases the
just-inserted registry entry (iterator erase, so exactly the appended entry),
then `undep` pops the completion-list link if one was made. The allocated id
is not rolled back, as in the source. -/
def chain_async_op_fail (fail : FailPoint) (optype : OpType) (detachedfuture : Bool)
    (pre : Nat) (st : DState) : Except DState (Nat × DState) :=
  let thisid := allocId st.monotoniccount
  let done := pre != 0 && (lookupOp pre st.ops).isSome
  let ops1 := if done then pushCompletion pre thisid st.ops else st.ops
  let unwindDep := fun (o : List (Nat × OpRecord)) => if done then popCompletion pre o else o
  if fail = FailPoint.atEnqueue && !done then
    Except.error ⟨thisid, unwindDep ops1⟩
  else if fail = FailPoint.atInsert then
    Except.error ⟨thisid, unwindDep ops1⟩
  else
    let ops2 := ops1 ++ [(thisid, ⟨optype, false, []⟩)]
    if fail = FailPoint.atDetach && detachedfuture then
      Except.error ⟨thisid, unwindDep ops2.dropLast⟩
    else
      let ops3 := if detachedfuture then
        ops2.map (fun kr => if kr.1 = thisid then (kr.1, ⟨kr.2.optype, true, kr.2.completions⟩) else kr)
        else ops2
      Except.ok (thisid, ⟨thisid, ops3⟩)

/-- Errors of `complete_async_op`: the op itself, or one of its chained
children, is missing from the registry (both are thrown as
`std::runtime_error` in the source). -/
inductive CompleteError where
  | opNotFound
  | completionOpNotFound
deriving DecidableEq

/-- `async_file_io_dispatcher_base::complete_async_op` restricted to its
registry effect: find the op (missing means the fatal invariant break), check
each chained child is registered while dispatching it (a missing child is the
other fatal error), and erase the op. The handle/error payload fulfils the
detached promise, which is not structural, so it is not a parameter here. -/
def complete_async_op (id : Nat) (st : DState) : Except CompleteError DState :=
  match lookupOp id st.ops with
  | none => Except.error CompleteError.opNotFound
  | some r =>
    if r.completions.all (fun c => (lookupOp c st.ops).isSome) then
      Except.ok ⟨st.monotoniccount, eraseOp id st.ops⟩
    else
      Except.error CompleteError.completionOpNotFound

/-- `chain_async_ops`: one `chain_async_op` per batch element, in order,
under one hold of the ops lock. Each element contributes its precondition
id; the other request payload has no registry effect. -/
def chain_async_ops (optype : OpType) (detachedfuture : Bool) (pres : List Nat)
    (st : DState) : List Nat × DState :=
  match pres with
  | [] => ([], st)
  | p :: rest =>
    let r := chain_async_op optype detachedfuture p st
    let rs := chain_async_ops optype detachedfuture rest r.2
    (r.1 :: rs.1, rs.2)

/-- `async_file_io_dispatcher_base::completion`: iterates the `ops` and
`callbacks` vectors in lockstep and stops as soon as either is exhausted
(`i!=ops.end() && c!=callbacks.end()`). Each callback contributes its
`detachedfuture` flag (the `bool` of the pair). -/
def completion (pres : List Nat) (callbacks : List Bool) (st : DState) : List Nat × DState :=
  match pres, callbacks with
  | p :: ps, c :: cs =>
    let r := chain_async_op OpType.UserCompletion c p st
    let rs := completion ps cs r.2
    (r.1 :: rs.1, rs.2)
  | _, _ => ([], st)

/-- Loop body of `async_file_io_dispatcher_compat::close` for one batch
element: chain the close op on the element, then, only when built for Linux
(`#ifdef __linux__`) and the handle has ever been fsynced, chain a parent
directory open, a sync of it and a close of it, each on the previous op, and
return the last of the chain instead of the close.

Modelled from the spec: the inner calls use the `chain_async_op` overload
without an explicit op-kind tag (declared in the header, which is not under
`src/`); each chained op is tagged with the kind of the primitive it binds
(`dofile`, `dosync`, `doclose`). The directory path payload of the opened op
(`p->path().parent_path()` with `file_flags::Read`) is carried by the bound
thunk and has no registry effect, so it is not structural here. -/
def close_compat_body (isLinux : Bool) (st : DState) (pre : Nat) (everFsynced : Bool) :
    Nat × DState :=
  let r1 := chain_async_op OpType.close false pre st
  if isLinux && everFsynced then
    let r2 := chain_async_op OpType.file false r1.1 r1.2
    let r3 := chain_async_op OpType.sync false r2.1 r2.2
    let r4 := chain_async_op OpType.close false r3.1 r3.2
    r4
  else r1

/-- `async_file_io_dispatcher_compat::close`: one `close_compat_body` per
batch element, pushing one returned op reference per element. -/
def close_compat (isLinux : Bool) (inputs : List (Nat × Bool)) (st : DState) :
    List Nat × DState :=
  match inputs with
  | [] => ([], st)
  | i :: rest =>
    let r := close_compat_body isLinux st i.1 i.2
    let rs := close_compat isLinux rest r.2
    (r.1 :: rs.1, rs.2)

/-- The counter evolution of a fresh dispatcher: `counterAfter n` is the
value of `monotoniccount` after `n` allocations (the allocated id of the
`n`-th allocation, since the loop leaves the counter at the id). -/
def counterAfter : Nat → Nat
  | 0 => 0
  | n + 1 => allocId (counterAfter n)

/-- The id returned by the `n`-th allocation (1-indexed) of a dispatcher
whose counter started at zero. -/
def nthId (n : Nat) : Nat := counterAfter n

/-- Per-handle write bookkeeping of `async_io_handle` (the posix handle adds
`has_ever_been_fsynced`, and `autoflush` is set from the request flags at
open). Counters are the spec's `bytes_written_total` and
`bytes_written_at_last_fsync`. -/
structure IoHandle where
  byteswritten : Nat
  byteswrittenatlastfsync : Nat
  has_ever_been_fsynced : Bool
  autoflush : Bool
deriving DecidableEq

/-- Modelled from the spec: `write_count_since_fsync()` is declared in the
header `async_file_io.hpp`, which is not under `src/`; per the spec counters
it is the bytes written since the last fsync,
`bytes_written_total - bytes_written_at_last_fsync`. -/
def write_count_since_fsync (h : IoHandle) : Nat :=
  h.byteswritten - h.byteswrittenatlastfsync

/-- `async_file_io_dispatcher_compat::dosync`: flush iff some bytes are
unsynced, mark the handle as ever fsynced, and advance
`byteswrittenatlastfsync` by the amount synced. Returns whether a kernel
flush was issued together with the updated handle. -/
def dosync_compat (h : IoHandle) : Bool × IoHandle :=
  let bytestobesynced := write_count_since_fsync h
  (bytestobesynced != 0,
   ⟨h.byteswritten, h.byteswrittenatlastfsync + bytestobesynced, true, h.autoflush⟩)

/-- `async_file_io_dispatcher_windows::dosync`: as the compat one but the
windows handle has no `has_ever_been_fsynced` field. -/
def dosync_windows (h : IoHandle) : Bool × IoHandle :=
  let bytestobesynced := write_count_since_fsync h
  (bytestobesynced != 0,
   ⟨h.byteswritten, h.byteswrittenatlastfsync + bytestobesynced, h.has_ever_been_fsynced, h.autoflush⟩)

/-- `doclose` (both backends): fsync iff autoflush and dirty, then close the
descriptor. Neither counter is touched. Returns whether the flush-on-close
was issued together with the (counter-)unchanged handle. -/
def doclose_counters (h : IoHandle) : Bool × IoHandle :=
  (h.autoflush && write_count_since_fsync h != 0, h)

/-- Modelled from the spec: the update of `bytes_written_total` by a write
(`write ... Updates bytes_written_total by total bytes transferred`) lives in
the header that is not under `src/`. -/
def dowrite_counters (n : Nat) (h : IoHandle) : IoHandle :=
  ⟨h.byteswritten + n, h.byteswrittenatlastfsync, h.has_ever_been_fsynced, h.autoflush⟩

/-- The recognized request option flags (`file_flags`); the dispatcher also
holds a force and a mask set. Modelled as one boolean per named flag. -/
structure FileFlags where
  read : Bool
  write : Bool
  append : Bool
  truncate : Bool
  create : Bool
  createOnlyIfNotExist : Bool
  autoflush : Bool
  willBeSequentiallyAccessed : Bool
  osdirect : Bool
  ossync : Bool
deriving DecidableEq

/-- All flags clear. -/
def noFlags : FileFlags := ⟨false, false, false, false, false, false, false, false, false, false⟩

/-- `async_file_io_dispatcher_base::fileflags`: effective flags are
`(flags & ~flagsmask) | flagsforce`, pointwise per flag. -/
def fileflags (flagsforce flagsmask f : FileFlags) : FileFlags :=
  ⟨(f.read && !flagsmask.read) || flagsforce.read,
   (f.write && !flagsmask.write) || flagsforce.write,
   (f.append && !flagsmask.append) || flagsforce.append,
   (f.truncate && !flagsmask.truncate) || flagsforce.truncate,
   (f.create && !flagsmask.create) || flagsforce.create,
   (f.createOnlyIfNotExist && !flagsmask.createOnlyIfNotExist) || flagsforce.createOnlyIfNotExist,
   (f.autoflush && !flagsmask.autoflush) || flagsforce.autoflush,
   (f.willBeSequentiallyAccessed && !flagsmask.willBeSequentiallyAccessed) || flagsforce.willBeSequentiallyAccessed,
   (f.osdirect && !flagsmask.osdirect) || flagsforce.osdirect,
   (f.ossync && !flagsmask.ossync) || flagsforce.ossync⟩

instance {ε α : Type} [DecidableEq ε] [DecidableEq α] : DecidableEq (Except ε α) := fun a b =>
  match a, b with
  | Except.ok x, Except.ok y =>
    match decEq x y with
    | isTrue h => isTrue (by rw [h])
    | isFalse h => isFalse (fun he => h (Except.ok.inj he))
  | Except.error x, Except.error y =>
    match decEq x y with
    | isTrue h => isTrue (by rw [h])
    | isFalse h => isFalse (fun he => h (Except.error.inj he))
  | Except.ok _, Except.error _ => isFalse (fun he => Except.noConfusion he)
  | Except.error _, Except.ok _ => isFalse (fun he => Except.noConfusion he)

/-- Outcome of the `posix_mkdir` call as seen by `dodir`. -/
inductive MkdirOutcome where
  | ok
  | eexist
  | err (errno : Nat)
deriving DecidableEq

/-- The file-system responses `dodir` (compat) consults: the mkdir outcome,
the stat outcome (`none` means the stat call itself failed, otherwise whether
the path is a directory), and the `posix_open` outcome used by `dofile` when
the Read flag asks for a real handle. -/
structure DirFsEnv where
  mkdir : MkdirOutcome
  statResult : Option Bool
  openfd : Except Nat Nat
deriving DecidableEq

/-- Errors `dodir` can surface. -/
inductive DodirError where
  | notADirectory
  | osError (errno : Nat)
deriving DecidableEq

/-- `async_file_io_dispatcher_compat::dodir`. The local `ret` of the source
is reproduced faithfully: it receives the mkdir outcome (kept `-1` on
`EEXIST` exactly when `CreateOnlyIfNotExist` was requested, the "ignore
already exists unless we were asked otherwise" dance) and is then overwritten
by the `posix_stat` return without ever being consulted, so no mkdir failure
is surfaced. On the Read branch `dofile` opens a real handle and `dodir` sets
its `byteswritten` to 1 to enable fsyncing of directories; otherwise a dummy
handle (fd -999, counters zero) is returned. -/
def dodir_compat (flagsforce flagsmask reqflags : FileFlags) (env : DirFsEnv) :
    Except DodirError IoHandle :=
  let flags := fileflags flagsforce flagsmask reqflags
  let retAfterMkdir : Int :=
    if flags.create then
      match env.mkdir with
      | MkdirOutcome.ok => 0
      | MkdirOutcome.eexist => if flags.createOnlyIfNotExist then -1 else 0
      | MkdirOutcome.err _ => -1
    else 0
  let flags2 := if flags.create then
    ⟨flags.read, flags.write, flags.append, flags.truncate, false, false,
     flags.autoflush, flags.willBeSequentiallyAccessed, flags.osdirect, flags.ossync⟩
    else flags
  let _ := retAfterMkdir
  let statCheck : Except DodirError Unit :=
    match env.statResult with
    | some isdir => if !isdir then Except.error DodirError.notADirectory else Except.ok ()
    | none => Except.ok ()
  match statCheck with
  | Except.error e => Except.error e
  | Except.ok _ =>
    if flags2.read then
      match env.openfd with
      | Except.ok _fd => Except.ok ⟨1, 0, false, flags2.autoflush && flags2.write⟩
      | Except.error e => Except.error (DodirError.osError e)
    else
      Except.ok ⟨0, 0, false, false⟩

/-- Outcome of the `CreateDirectory` call as seen by the windows `dodir`. -/
inductive CreateDirOutcome where
  | ok
  | alreadyExists
  | otherFailure
deriving DecidableEq

/-- The file-system responses the windows `dodir` consults:
the `CreateDirectory` outcome, the `GetFileAttributes` outcome (`none` means
`INVALID_FILE_ATTRIBUTES`, otherwise whether the directory attribute is set),
and the `CreateFile` outcome used by `dofile` on the Read branch. -/
structure WinDirEnv where
  createDir : CreateDirOutcome
  attr : Option Bool
  openh : Except Nat Nat
deriving DecidableEq

/-- `async_file_io_dispatcher_windows::dodir`. As in the compat backend the
local `ret` (set to 1 to swallow `ERROR_ALREADY_EXISTS` unless
`CreateOnlyIfNotExist` was requested) is never consulted afterwards, so no
creation failure is surfaced; only the not-a-directory check can throw before
the Read branch. The windows `dodir` does not touch `byteswritten`. -/
def dodir_windows (flagsforce flagsmask reqflags : FileFlags) (env : WinDirEnv) :
    Except DodirError IoHandle :=
  let flags := fileflags flagsforce flagsmask reqflags
  let retAfterCreate : Int :=
    if flags.create then
      match env.createDir with
      | CreateDirOutcome.ok => 1
      | CreateDirOutcome.alreadyExists => if flags.createOnlyIfNotExist then 0 else 1
      | CreateDirOutcome.otherFailure => 0
    else 0
  let flags2 := if flags.create then
    ⟨flags.read, flags.write, flags.append, flags.truncate, false, false,
     flags.autoflush, flags.willBeSequentiallyAccessed, flags.osdirect, flags.ossync⟩
    else flags
  let _ := retAfterCreate
  let attrCheck : Except DodirError Unit :=
    match env.attr with
    | some isdir => if !isdir then Except.error DodirError.notADirectory else Except.ok ()
    | none => Except.ok ()
  match attrCheck with
  | Except.error e => Except.error e
  | Except.ok _ =>
    if flags2.read then
      match env.openh with
      | Except.ok _h => Except.ok ⟨0, 0, false, flags2.autoflush && flags2.write⟩
      | Except.error e => Except.error (DodirError.osError e)
    else
      Except.ok ⟨0, 0, false, false⟩

/-- Modelled from the spec: the `creation` disposition enum of the v2 handle
(declared in `handle.hpp`, not under `src/`); `file_handle.hpp` uses
`open_existing` and `only_if_not_exist`. -/
inductive Creation where
  | open_existing
  | only_if_not_exist
  | truncate_existing
  | always_new
deriving DecidableEq

/-- The POSIX `EEXIST` errno value compared against by `random_file`. -/
def EEXIST : Nat := 17

/-- The `file_handle::file` operation as an environment: attempt index (one
fresh random name per attempt) and creation disposition to outcome, an errno
on error or a handle identity on success. Its implementation lives in the
platform `.ipp` files, which are not under `src/`. -/
abbrev FileOracle := Nat → Creation → Except Nat Nat

/-- The do-while loop of `file_handle::random_file`: probe
`file(dirpath / random_string(32), mode, creation::only_if_not_exist, ...)`;
return on success or on any error other than `EEXIST`, otherwise retry with
the next fresh name. `fuel` bounds the number of probes we unfold; `none`
means the loop was still running when the fuel ran out. -/
def random_file_loop (fileOp : FileOracle) : Nat → Nat → Option (Except Nat Nat)
  | _, 0 => none
  | attempt, fuel + 1 =>
    match fileOp attempt Creation.only_if_not_exist with
    | Except.ok h => some (Except.ok h)
    | Except.error c =>
      if c = EEXIST then random_file_loop fileOp (attempt + 1) fuel
      else some (Except.error c)

/-- `file_handle::random_file`, starting from the first fresh name. -/
def random_file (fileOp : FileOracle) (fuel : Nat) : Option (Except Nat Nat) :=
  random_file_loop fileOp 0 fuel

/-- Modelled from the spec: `fixme_temporary_files_directory() / name`; the
path type is modelled as a string and `/` as separator concatenation. -/
def pathJoin (dir name : String) : String := dir ++ "/" ++ name

/-- `file_handle::temp_file`, parametric in the `file` and `random_file`
operations it calls (their implementations are not under `src/`) and in the
probed temporary directory: with an empty name it calls
`random_file(tmpdir, mode, caching, flags)`, dropping the creation argument;
otherwise it calls `file(tmpdir / name, mode, creation, caching, flags)`.
Mode, caching and flags are abstract tokens. -/
def temp_file (fileOp : String → Nat → Creation → Nat → Nat → Except Nat Nat)
    (randomFileOp : String → Nat → Nat → Nat → Except Nat Nat)
    (tmpdir name : String) (m : Nat) (c : Creation) (cache : Nat) (fl : Nat) :
    Except Nat Nat :=
  if name.isEmpty then randomFileOp tmpdir m cache fl
  else fileOp (pathJoin tmpdir name) m c cache fl

/-! ### Registry association-list lemmas -/

theorem lookupOp_eq_none (id : Nat) (l : List (Nat × OpRecord)) (h : id ∉ l.map Prod.fst) :
    lookupOp id l = none := by
  induction l with
  | nil => rfl
  | cons kr rest ih =>
    simp only [List.map_cons, List.mem_cons, not_or] at h
    rw [lookupOp, if_neg (fun hh => h.1 hh.symm), ih h.2]

theorem lookupOp_append_of_none (id : Nat) (l1 l2 : List (Nat × OpRecord))
    (h : lookupOp id l1 = none) : lookupOp id (l1 ++ l2) = lookupOp id l2 := by
  induction l1 with
  | nil => rfl
  | cons kr rest ih =>
    rw [lookupOp] at h
    by_cases hk : kr.1 = id
    · rw [if_pos hk] at h; exact absurd h (by simp)
    · rw [if_neg hk] at h
      rw [List.cons_append, lookupOp, if_neg hk, ih h]

theorem lookupOp_append_of_some (id : Nat) (l1 l2 : List (Nat × OpRecord)) (r : OpRecord)
    (h : lookupOp id l1 = some r) : lookupOp id (l1 ++ l2) = some r := by
  induction l1 with
  | nil => exact absurd h (by simp [lookupOp])
  | cons kr rest ih =>
    rw [lookupOp] at h
    by_cases hk : kr.1 = id
    · rw [if_pos hk] at h
      rw [List.cons_append, lookupOp, if_pos hk]; exact h
    · rw [if_neg hk] at h
      rw [List.cons_append, lookupOp, if_neg hk, ih h]

theorem pushCompletion_nil (i c : Nat) : pushCompletion i c [] = [] := rfl

theorem pushCompletion_cons (i c : Nat) (kr : Nat × OpRecord) (rest : List (Nat × OpRecord)) :
    pushCompletion i c (kr :: rest) =
      (if kr.1 = i then (kr.1, ⟨kr.2.optype, kr.2.detached, kr.2.completions ++ [c]⟩) else kr)
        :: pushCompletion i c rest := rfl

theorem pushCompletion_keys (i c : Nat) (l : List (Nat × OpRecord)) :
    (pushCompletion i c l).map Prod.fst = l.map Prod.fst := by
  induction l with
  | nil => rfl
  | cons kr rest ih =>
    rw [pushCompletion_cons]
    by_cases hk : kr.1 = i <;> simp [hk, ih]

theorem pushCompletion_not_mem (i c : Nat) (l : List (Nat × OpRecord))
    (h : i ∉ l.map Prod.fst) : pushCompletion i c l = l := by
  induction l with
  | nil => rfl
  | cons kr rest ih =>
    simp only [List.map_cons, List.mem_cons, not_or] at h
    rw [pushCompletion_cons, if_neg (fun hh => h.1 hh.symm), ih h.2]

theorem pushCompletion_append (i c : Nat) (l1 l2 : List (Nat × OpRecord)) :
    pushCompletion i c (l1 ++ l2) = pushCompletion i c l1 ++ pushCompletion i c l2 := by
  unfold pushCompletion; exact List.map_append _ l1 l2

theorem popCompletion_pushCompletion (i c : Nat) (l : List (Nat × OpRecord)) :
    popCompletion i (pushCompletion i c l) = l := by
  induction l with
  | nil => rfl
  | cons kr rest ih =>
    obtain ⟨k, ot, dt, comps⟩ := kr
    by_cases hk : k = i <;>
      simp [pushCompletion, popCompletion, hk, List.dropLast_concat] at ih ⊢ <;>
        exact ih

/-! ### Id-allocation arithmetic -/

theorem allocId_ne_zero (c : Nat) : allocId c ≠ 0 := by
  unfold allocId
  by_cases h : (c + 1) % USIZE = 0
  · rw [if_pos h]
    have h2 : (c + 2) % USIZE = 1 := by
      have e : c + 2 = (c + 1) + 1 := by omega
      rw [e, Nat.add_mod, h]
      norm_num [USIZE]
    rw [h2]; omega
  · rw [if_neg h]; exact h

theorem allocId_eq_succ (c : Nat) (h : c + 1 < USIZE) : allocId c = c + 1 := by
  unfold allocId
  rw [Nat.mod_eq_of_lt h, if_neg (by omega)]

theorem counterAfter_closed (n : Nat) :
    counterAfter (n + 1) = n % (USIZE - 1) + 1 := by
  have hU : 2 < USIZE := by norm_num [USIZE]
  induction n with
  | zero =>
    show allocId (counterAfter 0) = 0 % (USIZE - 1) + 1
    rw [show counterAfter 0 = 0 from rfl, allocId_eq_succ 0 (by omega), Nat.zero_mod]
  | succ n ih =>
    show allocId (counterAfter (n + 1)) = (n + 1) % (USIZE - 1) + 1
    rw [ih]
    have hM : 0 < USIZE - 1 := by omega
    have hr : n % (USIZE - 1) < USIZE - 1 := Nat.mod_lt _ hM
    have h1M : 1 % (USIZE - 1) = 1 := Nat.mod_eq_of_lt (by omega)
    by_cases hcase : n % (USIZE - 1) + 1 = USIZE - 1
    · have hA : allocId (n % (USIZE - 1) + 1) = 1 := by
        unfold allocId
        have e1 : n % (USIZE - 1) + 1 + 1 = USIZE := by omega
        rw [e1, Nat.mod_self, if_pos rfl]
        have e2 : n % (USIZE - 1) + 1 + 2 = USIZE + 1 := by omega
        rw [e2, Nat.add_mod_left, Nat.mod_eq_of_lt (by omega)]
      have hB : (n + 1) % (USIZE - 1) = 0 := by
        rw [Nat.add_mod, h1M, hcase, Nat.mod_self]
      rw [hA, hB]
    · have hA : allocId (n % (USIZE - 1) + 1) = n % (USIZE - 1) + 2 := by
        have := allocId_eq_succ (n % (USIZE - 1) + 1) (by omega)
        omega
      have hB : (n + 1) % (USIZE - 1) = n % (USIZE - 1) + 1 := by
        rw [Nat.add_mod, h1M, Nat.mod_eq_of_lt (by omega)]
      rw [hA, hB]

theorem nthId_eq_self (n : Nat) (h1 : 1 ≤ n) (h2 : n < USIZE) : nthId n = n := by
  have hU : 2 < USIZE := by norm_num [USIZE]
  obtain ⟨m, rfl⟩ : ∃ m, n = m + 1 := ⟨n - 1, by omega⟩
  unfold nthId
  rw [counterAfter_closed, Nat.mod_eq_of_lt (by omega)]

/-- C4 (amended): every id the dispatcher allocates is positive (the
skip-zero loop never returns the sentinel 0), and for the first `2^64 - 1`
allocations the n-th allocated id is exactly n, so within that range ids are
strictly increasing and never reused. -/
theorem op_ids_positive_and_increasing_before_wrap :
    (∀ c, allocId c ≠ 0) ∧ (∀ n, 1 ≤ n → n < USIZE → nthId n = n) :=
  ⟨allocId_ne_zero, nthId_eq_self⟩

/-- Witness for the amended C4 theorem at concrete inputs. -/
theorem op_ids_positive_and_increasing_before_wrap_witness :
    allocId 41 ≠ 0 ∧ nthId 5 = 5 :=
  ⟨op_ids_positive_and_increasing_before_wrap.1 41,
   op_ids_positive_and_increasing_before_wrap.2 5 (by norm_num) (by norm_num [USIZE])⟩

/-- C4 counterexample: the `size_t` counter wraps, so at the `2^64`-th
allocation of one dispatcher the id 1 is allocated again; over the whole
lifetime ids are neither strictly increasing nor free of reuse. -/
theorem op_id_reused_after_wraparound : nthId USIZE = nthId 1 ∧ USIZE ≠ 1 := by
  constructor
  · have h1 : nthId 1 = 1 := by
      unfold nthId
      rw [show (1 : Nat) = 0 + 1 from rfl, counterAfter_closed, Nat.zero_mod]
    have h2 : nthId USIZE = 1 := by
      unfold nthId
      have e : USIZE = (USIZE - 1) + 1 := by norm_num [USIZE]
      rw [e, counterAfter_closed, Nat.mod_self]
    rw [h1, h2]
  · norm_num [USIZE]

/-- C2: `complete_async_op` invoked with an id absent from the operation
registry raises the fatal invariant error at once: no registry mutation, no
child dispatch, no recovery. -/
theorem complete_async_op_missing_id_fatal (id : Nat) (st : DState)
    (h : lookupOp id st.ops = none) :
    complete_async_op id st = Except.error CompleteError.opNotFound := by
  unfold complete_async_op
  rw [h]

/-- Witness for the C2 theorem at a concrete registry missing id 42. -/
theorem complete_async_op_missing_id_fatal_witness :
    lookupOp 42 [(3, ⟨OpType.file, false, []⟩)] = none ∧
    complete_async_op 42 ⟨7, [(3, ⟨OpType.file, false, []⟩)]⟩ =
      Except.error CompleteError.opNotFound :=
  ⟨by decide, complete_async_op_missing_id_fatal 42 ⟨7, [(3, ⟨OpType.file, false, []⟩)]⟩ (by decide)⟩

/-- C3: whenever `chain_async_op` fails after linking onto the precondition
completion list or after inserting the registry entry, the scoped undo
actions restore the registry and the chain state to exactly their values
before the call. -/
theorem chain_async_op_failure_rolls_back (fail : FailPoint) (optype : OpType)
    (detachedfuture : Bool) (pre : Nat) (st errSt : DState)
    (h : chain_async_op_fail fail optype detachedfuture pre st = Except.error errSt) :
    errSt.ops = st.ops := by
  obtain ⟨em, eo⟩ := errSt
  unfold chain_async_op_fail at h
  by_cases hd : (pre != 0 && (lookupOp pre st.ops).isSome) = true <;>
    cases fail <;>
      by_cases hdet : detachedfuture = true <;>
        simp_all [popCompletion_pushCompletion, List.dropLast_concat]
  all_goals
    split at h <;>
      first
      | (rename_i hcond
         rcases hcond with hc | hc <;> simp_all)
      | simp_all

/-- Witness for the C3 theorem: a failure at the registry insertion with a
chained precondition, on a concrete one-op registry. -/
theorem chain_async_op_failure_rolls_back_witness :
    chain_async_op_fail FailPoint.atInsert OpType.file false 3
        ⟨5, [(3, ⟨OpType.file, false, []⟩)]⟩ =
      Except.error ⟨6, [(3, ⟨OpType.file, false, []⟩)]⟩ ∧
    (⟨6, [(3, ⟨OpType.file, false, []⟩)]⟩ : DState).ops =
      (⟨5, [(3, ⟨OpType.file, false, []⟩)]⟩ : DState).ops :=
  ⟨by decide, chain_async_op_failure_rolls_back FailPoint.atInsert OpType.file false 3
      ⟨5, [(3, ⟨OpType.file, false, []⟩)]⟩ ⟨6, [(3, ⟨OpType.file, false, []⟩)]⟩ (by decide)⟩

/-- C1 (amended, Linux build): for every close submitted on a handle that
has ever been fsynced, the compat backend built for Linux chains three
follow-up ops after the close - a parent-directory open (`dofile`), a sync of
it and a close of it - each registered on the completion list of the previous
op, the first on the close op itself, and the op reference handed back to the
caller is the last of the chain, so it resolves only after all four ops
complete in order. -/
theorem close_linux_chains_dirsync (st : DState) (pre : Nat)
    (hlt : st.monotoniccount + 4 < USIZE)
    (hkeys : ∀ k ∈ st.ops.map Prod.fst, k ≤ st.monotoniccount) :
    (close_compat_body true st pre true).1 = st.monotoniccount + 4 ∧
    lookupOp (st.monotoniccount + 1) (close_compat_body true st pre true).2.ops =
      some ⟨OpType.close, false, [st.monotoniccount + 2]⟩ ∧
    lookupOp (st.monotoniccount + 2) (close_compat_body true st pre true).2.ops =
      some ⟨OpType.file, false, [st.monotoniccount + 3]⟩ ∧
    lookupOp (st.monotoniccount + 3) (close_compat_body true st pre true).2.ops =
      some ⟨OpType.sync, false, [st.monotoniccount + 4]⟩ ∧
    lookupOp (st.monotoniccount + 4) (close_compat_body true st pre true).2.ops =
      some ⟨OpType.close, false, []⟩ := by
  obtain ⟨c0, ops0⟩ := st
  simp only at hlt hkeys ⊢
  have h1 : allocId c0 = c0 + 1 := allocId_eq_succ c0 (by omega)
  have h2 : allocId (c0 + 1) = c0 + 2 := allocId_eq_succ (c0 + 1) (by omega)
  have h3 : allocId (c0 + 2) = c0 + 3 := allocId_eq_succ (c0 + 2) (by omega)
  have h4 : allocId (c0 + 3) = c0 + 4 := allocId_eq_succ (c0 + 3) (by omega)
  obtain ⟨A, hst1, hAkeys⟩ :
      ∃ A, chain_async_op OpType.close false pre ⟨c0, ops0⟩ =
        (c0 + 1, ⟨c0 + 1, A ++ [(c0 + 1, ⟨OpType.close, false, []⟩)]⟩) ∧
        A.map Prod.fst = ops0.map Prod.fst := by
    by_cases hd0 : (pre != 0 && (lookupOp pre ops0).isSome) = true
    · exact ⟨pushCompletion pre (c0 + 1) ops0, by simp [chain_async_op, hd0, h1],
        pushCompletion_keys _ _ _⟩
    · exact ⟨ops0, by simp [chain_async_op, hd0, h1], rfl⟩
  have hfrA : ∀ j, 1 ≤ j → j ≤ 4 → (c0 + j) ∉ A.map Prod.fst := by
    intro j hj1 hj4 hm
    rw [hAkeys] at hm
    have := hkeys _ hm
    omega
  have hlA : ∀ j, 1 ≤ j → j ≤ 4 → lookupOp (c0 + j) A = none :=
    fun j hj1 hj4 => lookupOp_eq_none _ _ (hfrA j hj1 hj4)
  have hpushA : ∀ j c, 1 ≤ j → j ≤ 4 → pushCompletion (c0 + j) c A = A :=
    fun j c hj1 hj4 => pushCompletion_not_mem _ _ _ (hfrA j hj1 hj4)
  have hl1 : lookupOp (c0 + 1) (A ++ [(c0 + 1, (⟨OpType.close, false, []⟩ : OpRecord))]) =
      some ⟨OpType.close, false, []⟩ := by
    rw [lookupOp_append_of_none _ _ _ (hlA 1 (by omega) (by omega))]
    simp [lookupOp]
  have hst2 : chain_async_op OpType.file false (c0 + 1)
      ⟨c0 + 1, A ++ [(c0 + 1, ⟨OpType.close, false, []⟩)]⟩ =
      (c0 + 2, ⟨c0 + 2, A ++ [(c0 + 1, ⟨OpType.close, false, [c0 + 2]⟩),
        (c0 + 2, ⟨OpType.file, false, []⟩)]⟩) := by
    simp only [chain_async_op, h2, hl1, Option.isSome_some, Bool.and_true]
    rw [if_pos (by simp)]
    rw [pushCompletion_append, hpushA 1 (c0 + 2) (by omega) (by omega)]
    simp [pushCompletion]
  have hl2 : lookupOp (c0 + 2) (A ++ [(c0 + 1, (⟨OpType.close, false, [c0 + 2]⟩ : OpRecord)),
      (c0 + 2, (⟨OpType.file, false, []⟩ : OpRecord))]) = some ⟨OpType.file, false, []⟩ := by
    rw [lookupOp_append_of_none _ _ _ (hlA 2 (by omega) (by omega))]
    have hne : c0 + 1 ≠ c0 + 2 := by omega
    simp [lookupOp, hne]
  have hst3 : chain_async_op OpType.sync false (c0 + 2)
      ⟨c0 + 2, A ++ [(c0 + 1, ⟨OpType.close, false, [c0 + 2]⟩),
        (c0 + 2, ⟨OpType.file, false, []⟩)]⟩ =
      (c0 + 3, ⟨c0 + 3, A ++ [(c0 + 1, ⟨OpType.close, false, [c0 + 2]⟩),
        (c0 + 2, ⟨OpType.file, false, [c0 + 3]⟩),
        (c0 + 3, ⟨OpType.sync, false, []⟩)]⟩) := by
    simp only [chain_async_op, h3, hl2, Option.isSome_some, Bool.and_true]
    rw [if_pos (by simp)]
    rw [pushCompletion_append, hpushA 2 (c0 + 3) (by omega) (by omega)]
    have hne : ¬(c0 + 1 = c0 + 2) := by omega
    simp [pushCompletion, hne]
  have hl3 : lookupOp (c0 + 3) (A ++ [(c0 + 1, (⟨OpType.close, false, [c0 + 2]⟩ : OpRecord)),
      (c0 + 2, (⟨OpType.file, false, [c0 + 3]⟩ : OpRecord)),
      (c0 + 3, (⟨OpType.sync, false, []⟩ : OpRecord))]) = some ⟨OpType.sync, false, []⟩ := by
    rw [lookupOp_append_of_none _ _ _ (hlA 3 (by omega) (by omega))]
    have hne1 : c0 + 1 ≠ c0 + 3 := by omega
    have hne2 : c0 + 2 ≠ c0 + 3 := by omega
    simp [lookupOp, hne1, hne2]
  have hst4 : chain_async_op OpType.close false (c0 + 3)
      ⟨c0 + 3, A ++ [(c0 + 1, ⟨OpType.close, false, [c0 + 2]⟩),
        (c0 + 2, ⟨OpType.file, false, [c0 + 3]⟩),
        (c0 + 3, ⟨OpType.sync, false, []⟩)]⟩ =
      (c0 + 4, ⟨c0 + 4, A ++ [(c0 + 1, ⟨OpType.close, false, [c0 + 2]⟩),
        (c0 + 2, ⟨OpType.file, false, [c0 + 3]⟩),
        (c0 + 3, ⟨OpType.sync, false, [c0 + 4]⟩),
        (c0 + 4, ⟨OpType.close, false, []⟩)]⟩) := by
    simp only [chain_async_op, h4, hl3, Option.isSome_some, Bool.and_true]
    rw [if_pos (by simp)]
    rw [pushCompletion_append, hpushA 3 (c0 + 4) (by omega) (by omega)]
    have hne1 : ¬(c0 + 1 = c0 + 3) := by omega
    have hne2 : ¬(c0 + 2 = c0 + 3) := by omega
    simp [pushCompletion, hne1, hne2]
  have hbody : close_compat_body true ⟨c0, ops0⟩ pre true =
      (c0 + 4, ⟨c0 + 4, A ++ [(c0 + 1, ⟨OpType.close, false, [c0 + 2]⟩),
        (c0 + 2, ⟨OpType.file, false, [c0 + 3]⟩),
        (c0 + 3, ⟨OpType.sync, false, [c0 + 4]⟩),
        (c0 + 4, ⟨OpType.close, false, []⟩)]⟩) := by
    unfold close_compat_body
    rw [hst1]
    simp only [Bool.and_self, if_true]
    rw [hst2, hst3, hst4]
  rw [hbody]
  refine ⟨rfl, ?_, ?_, ?_, ?_⟩
  · rw [lookupOp_append_of_none _ _ _ (hlA 1 (by omega) (by omega))]
    simp [lookupOp]
  · rw [lookupOp_append_of_none _ _ _ (hlA 2 (by omega) (by omega))]
    have hne : c0 + 1 ≠ c0 + 2 := by omega
    simp [lookupOp, hne]
  · rw [lookupOp_append_of_none _ _ _ (hlA 3 (by omega) (by omega))]
    have hne1 : c0 + 1 ≠ c0 + 3 := by omega
    have hne2 : c0 + 2 ≠ c0 + 3 := by omega
    simp [lookupOp, hne1, hne2]
  · rw [lookupOp_append_of_none _ _ _ (hlA 4 (by omega) (by omega))]
    have hne1 : c0 + 1 ≠ c0 + 4 := by omega
    have hne2 : c0 + 2 ≠ c0 + 4 := by omega
    have hne3 : c0 + 3 ≠ c0 + 4 := by omega
    simp [lookupOp, hne1, hne2, hne3]

/-- Witness for the amended C1 theorem on a fresh dispatcher. -/
theorem close_linux_chains_dirsync_witness :
    (0 : Nat) + 4 < USIZE ∧
    ((close_compat_body true ⟨0, []⟩ 0 true).1 = 0 + 4 ∧
     lookupOp (0 + 1) (close_compat_body true ⟨0, []⟩ 0 true).2.ops =
       some ⟨OpType.close, false, [0 + 2]⟩ ∧
     lookupOp (0 + 2) (close_compat_body true ⟨0, []⟩ 0 true).2.ops =
       some ⟨OpType.file, false, [0 + 3]⟩ ∧
     lookupOp (0 + 3) (close_compat_body true ⟨0, []⟩ 0 true).2.ops =
       some ⟨OpType.sync, false, [0 + 4]⟩ ∧
     lookupOp (0 + 4) (close_compat_body true ⟨0, []⟩ 0 true).2.ops =
       some ⟨OpType.close, false, []⟩) :=
  ⟨by norm_num [USIZE],
   close_linux_chains_dirsync ⟨0, []⟩ 0 (by norm_num [USIZE]) (by simp)⟩

/-- C1 counterexample: the directory-sync chain is emitted only under
`#ifdef __linux__`; on a POSIX build without it, a close of an ever-fsynced
handle registers exactly one op - the close itself, with an empty completion
list - and hands that op back, so no three follow-up ops are chained. -/
theorem close_nonlinux_emits_no_dirsync_chain :
    close_compat_body false ⟨0, []⟩ 0 true =
      (1, ⟨1, [(1, ⟨OpType.close, false, []⟩)]⟩) := by decide

/-! ### Batch length lemmas -/

theorem chain_async_ops_length (optype : OpType) (d : Bool) (pres : List Nat) (st : DState) :
    (chain_async_ops optype d pres st).1.length = pres.length := by
  induction pres generalizing st with
  | nil => rfl
  | cons p rest ih => simp [chain_async_ops, ih]

theorem close_compat_length (isLinux : Bool) (inputs : List (Nat × Bool)) (st : DState) :
    (close_compat isLinux inputs st).1.length = inputs.length := by
  induction inputs generalizing st with
  | nil => rfl
  | cons i rest ih => simp [close_compat, ih]

theorem completion_length (pres : List Nat) (cbs : List Bool) (st : DState) :
    (completion pres cbs st).1.length = min pres.length cbs.length := by
  induction pres generalizing cbs st with
  | nil => cases cbs <;> simp [completion]
  | cons p ps ih =>
    cases cbs with
    | nil => simp [completion]
    | cons c cs =>
      simp [completion, ih]
      omega

/-- C6 (amended): each entry point built on `chain_async_ops` (dir, rmdir,
file, rmfile, sync, read, write, and the windows close), and the compat
close, return exactly one op reference per input element, in input order;
`completion`, which iterates its two vectors in lockstep, returns
`min |ops| |callbacks|` references - equal to the input length only when the
two vectors have the same length. -/
theorem batch_output_matches_input :
    (∀ optype d pres st, (chain_async_ops optype d pres st).1.length = pres.length) ∧
    (∀ isLinux inputs st, (close_compat isLinux inputs st).1.length = inputs.length) ∧
    (∀ pres cbs st, (completion pres cbs st).1.length = min pres.length cbs.length) :=
  ⟨chain_async_ops_length, close_compat_length, completion_length⟩

/-- C6 counterexample: `completion` with one op and no callback returns no
reference at all, so the output does not match the input length. -/
theorem completion_truncates_to_min_length :
    (completion [1] [] ⟨0, []⟩).1.length = 0 ∧ ([1] : List Nat).length = 1 := by decide

/-- C5 (code-bug evaluation): a `dir` request with effective flags
`Create|CreateOnlyIfNotExist` on an already existing directory succeeds in
both backends - the mkdir/CreateDirectory failure is computed into the local
`ret` but `ret` is overwritten by the stat call before anyone tests it, so
the already-exists error is never surfaced, contradicting the spec's
"fail if exists and CreateOnlyIfNotExist" (and, as its second conjunct
confirms, the swallow-when-not-exclusive half of the claim does hold). -/
theorem dodir_never_surfaces_already_exists :
    dodir_compat noFlags noFlags
        ⟨false, false, false, false, true, true, false, false, false, false⟩
        ⟨MkdirOutcome.eexist, some true, Except.error 13⟩ =
      Except.ok ⟨0, 0, false, false⟩ ∧
    dodir_compat noFlags noFlags
        ⟨false, false, false, false, true, false, false, false, false, false⟩
        ⟨MkdirOutcome.eexist, some true, Except.error 13⟩ =
      Except.ok ⟨0, 0, false, false⟩ ∧
    dodir_windows noFlags noFlags
        ⟨false, false, false, false, true, true, false, false, false, false⟩
        ⟨CreateDirOutcome.alreadyExists, some true, Except.error 13⟩ =
      Except.ok ⟨0, 0, false, false⟩ := by
  refine ⟨rfl, rfl, rfl⟩

/-- C7: a sync on a handle with no bytes written since the last fsync issues
no kernel flush and leaves `byteswrittenatlastfsync` unchanged, and (both
backends) a kernel flush is issued only when `byteswritten` strictly exceeds
`byteswrittenatlastfsync`. -/
theorem dosync_noop_when_clean (h : IoHandle) :
    (h.byteswritten = h.byteswrittenatlastfsync →
      (dosync_compat h).1 = false ∧
      (dosync_compat h).2.byteswrittenatlastfsync = h.byteswrittenatlastfsync ∧
      (dosync_windows h).1 = false ∧
      (dosync_windows h).2.byteswrittenatlastfsync = h.byteswrittenatlastfsync) ∧
    ((dosync_compat h).1 = true → h.byteswrittenatlastfsync < h.byteswritten) ∧
    ((dosync_windows h).1 = true → h.byteswrittenatlastfsync < h.byteswritten) := by
  obtain ⟨bw, bwlf, ef, af⟩ := h
  refine ⟨?_, ?_, ?_⟩
  · intro heq
    simp only at heq
    simp [dosync_compat, dosync_windows, write_count_since_fsync, heq]
  · intro hfl
    simp [dosync_compat, write_count_since_fsync] at hfl
    show bwlf < bw
    omega
  · intro hfl
    simp [dosync_windows, write_count_since_fsync] at hfl
    show bwlf < bw
    omega

/-- Witness for the C7 theorem on a clean handle with equal counters. -/
theorem dosync_noop_when_clean_witness :
    (dosync_compat ⟨10, 10, false, false⟩).1 = false ∧
    (dosync_compat ⟨10, 10, false, false⟩).2.byteswrittenatlastfsync = 10 :=
  ⟨((dosync_noop_when_clean ⟨10, 10, false, false⟩).1 rfl).1,
   ((dosync_noop_when_clean ⟨10, 10, false, false⟩).1 rfl).2.1⟩

/-- C8: `byteswrittenatlastfsync ≤ byteswritten` is preserved by every
operation that touches the counters: the write update, sync on either
backend, close (which leaves both counters alone), and every handle a `dir`
op hands out satisfies it outright. -/
theorem counter_invariant_preserved (h : IoHandle) (n : Nat)
    (hinv : h.byteswrittenatlastfsync ≤ h.byteswritten) :
    ((dowrite_counters n h).byteswrittenatlastfsync ≤ (dowrite_counters n h).byteswritten) ∧
    ((dosync_compat h).2.byteswrittenatlastfsync ≤ (dosync_compat h).2.byteswritten) ∧
    ((dosync_windows h).2.byteswrittenatlastfsync ≤ (dosync_windows h).2.byteswritten) ∧
    ((doclose_counters h).2.byteswrittenatlastfsync ≤ (doclose_counters h).2.byteswritten) ∧
    (∀ ff fm rf env hd, dodir_compat ff fm rf env = Except.ok hd →
      hd.byteswrittenatlastfsync ≤ hd.byteswritten) ∧
    (∀ ff fm rf env hd, dodir_windows ff fm rf env = Except.ok hd →
      hd.byteswrittenatlastfsync ≤ hd.byteswritten) := by
  obtain ⟨bw, bwlf, ef, af⟩ := h
  simp only at hinv
  refine ⟨?_, ?_, ?_, ?_, ?_, ?_⟩
  · simp [dowrite_counters]; omega
  · simp [dosync_compat, write_count_since_fsync]; omega
  · simp [dosync_windows, write_count_since_fsync]; omega
  · simp [doclose_counters]; omega
  · intro ff fm rf env hd heq
    rcases env with ⟨mkr, str, od⟩
    unfold dodir_compat at heq
    rcases str with _ | isd <;> rcases od with e | v <;> cases mkr <;> try rcases isd
    all_goals simp only [] at heq
    all_goals try split_ifs at heq
    all_goals simp at heq
    all_goals subst heq
    all_goals simp
  · intro ff fm rf env hd heq
    rcases env with ⟨cdr, attr, oh⟩
    unfold dodir_windows at heq
    rcases attr with _ | isd <;> rcases oh with e | v <;> cases cdr <;> try rcases isd
    all_goals simp only [] at heq
    all_goals try split_ifs at heq
    all_goals simp at heq
    all_goals subst heq
    all_goals simp

/-- Witness for the C8 theorem at concrete counters. -/
theorem counter_invariant_preserved_witness :
    (7 : Nat) ≤ 9 ∧
    ((dowrite_counters 5 ⟨9, 7, false, false⟩).byteswrittenatlastfsync ≤
      (dowrite_counters 5 ⟨9, 7, false, false⟩).byteswritten) :=
  ⟨by norm_num, (counter_invariant_preserved ⟨9, 7, false, false⟩ 5 (by norm_num)).1⟩

/-! ### random_file loop lemmas -/

theorem random_file_loop_no_eexist (fileOp : FileOracle) (fuel attempt c : Nat)
    (h : random_file_loop fileOp attempt fuel = some (Except.error c)) : c ≠ EEXIST := by
  induction fuel generalizing attempt with
  | zero => simp [random_file_loop] at h
  | succ f ih =>
    rw [random_file_loop] at h
    cases hcall : fileOp attempt Creation.only_if_not_exist with
    | ok v => rw [hcall] at h; simp at h
    | error e =>
      rw [hcall] at h
      simp only [] at h
      by_cases he : e = EEXIST
      · rw [if_pos he] at h
        exact ih (attempt + 1) h
      · rw [if_neg he] at h
        simp at h
        rw [← h]
        exact he

theorem random_file_loop_skips (fileOp : FileOracle) (n : Nat) :
    ∀ attempt fuel,
      (∀ k, k < n → fileOp (attempt + k) Creation.only_if_not_exist = Except.error EEXIST) →
      n < fuel →
      random_file_loop fileOp attempt fuel = random_file_loop fileOp (attempt + n) (fuel - n) := by
  induction n with
  | zero =>
    intro attempt fuel _ _
    simp
  | succ n ih =>
    intro attempt fuel h hf
    obtain ⟨f, rfl⟩ : ∃ f, fuel = f + 1 := ⟨fuel - 1, by omega⟩
    rw [random_file_loop,
      show fileOp attempt Creation.only_if_not_exist = Except.error EEXIST from h 0 (by omega)]
    simp only [if_true]
    have hshift : ∀ k, k < n →
        fileOp (attempt + 1 + k) Creation.only_if_not_exist = Except.error EEXIST := by
      intro k hk
      have e : attempt + 1 + k = attempt + (k + 1) := by omega
      rw [e]
      exact h (k + 1) (by omega)
    have hrec := ih (attempt + 1) f hshift (by omega)
    have e1 : attempt + 1 + n = attempt + (n + 1) := by omega
    have e2 : f - n = f + 1 - (n + 1) := by omega
    rw [e1, e2] at hrec
    exact hrec

/-- C9: `random_file` probes fresh random names under exclusive creation
(`creation::only_if_not_exist`): it never surfaces an `EEXIST` error, and if
the first n probes collide with `EEXIST` then it returns exactly the n-th
probe outcome when that is a success or any non-`EEXIST` error. -/
theorem random_file_retries_eexist :
    (∀ fileOp fuel c, random_file fileOp fuel = some (Except.error c) → c ≠ EEXIST) ∧
    (∀ (fileOp : FileOracle) n fuel h,
      (∀ k, k < n → fileOp k Creation.only_if_not_exist = Except.error EEXIST) →
      n < fuel → fileOp n Creation.only_if_not_exist = Except.ok h →
      random_file fileOp fuel = some (Except.ok h)) ∧
    (∀ (fileOp : FileOracle) n fuel c,
      (∀ k, k < n → fileOp k Creation.only_if_not_exist = Except.error EEXIST) →
      n < fuel → c ≠ EEXIST → fileOp n Creation.only_if_not_exist = Except.error c →
      random_file fileOp fuel = some (Except.error c)) := by
  refine ⟨?_, ?_, ?_⟩
  · intro fileOp fuel c h
    exact random_file_loop_no_eexist fileOp fuel 0 c h
  · intro fileOp n fuel h hE hf hok
    unfold random_file
    rw [random_file_loop_skips fileOp n 0 fuel (by simpa using hE) hf]
    obtain ⟨f, hfe⟩ : ∃ f, fuel - n = f + 1 := ⟨fuel - n - 1, by omega⟩
    rw [hfe, random_file_loop,
      show fileOp (0 + n) Creation.only_if_not_exist = Except.ok h by simpa using hok]
  · intro fileOp n fuel c hE hf hc herr
    unfold random_file
    rw [random_file_loop_skips fileOp n 0 fuel (by simpa using hE) hf]
    obtain ⟨f, hfe⟩ : ∃ f, fuel - n = f + 1 := ⟨fuel - n - 1, by omega⟩
    rw [hfe, random_file_loop,
      show fileOp (0 + n) Creation.only_if_not_exist = Except.error c by simpa using herr]
    simp only []
    rw [if_neg hc]

/-- Witness for the C9 theorem: an injected oracle colliding twice, then
succeeding; the two collisions are retried and the success is returned. -/
theorem random_file_retries_eexist_witness :
    random_file (fun k _ => if k < 2 then Except.error EEXIST else Except.ok 7) 5 =
      some (Except.ok 7) :=
  random_file_retries_eexist.2.1
    (fun k _ => if k < 2 then Except.error EEXIST else Except.ok 7) 2 5 7
    (by intro k hk; simp [hk]) (by norm_num) (by norm_num)

/-- C10: with an empty name `temp_file` is exactly the call
`random_file(fixme_temporary_files_directory(), mode, caching, flags)` and
the creation argument cannot influence the result; with a non-empty name it
is exactly `file(fixme_temporary_files_directory() / name, mode, creation,
caching, flags)`. -/
theorem temp_file_equiv :
    (∀ fileOp randomFileOp tmpdir m c cache fl,
      temp_file fileOp randomFileOp tmpdir "" m c cache fl = randomFileOp tmpdir m cache fl) ∧
    (∀ fileOp randomFileOp tmpdir m c1 c2 cache fl,
      temp_file fileOp randomFileOp tmpdir "" m c1 cache fl =
        temp_file fileOp randomFileOp tmpdir "" m c2 cache fl) ∧
    (∀ fileOp randomFileOp tmpdir name m c cache fl, ¬name.isEmpty →
      temp_file fileOp randomFileOp tmpdir name m c cache fl =
        fileOp (pathJoin tmpdir name) m c cache fl) := by
  refine ⟨?_, ?_, ?_⟩
  · intro fileOp randomFileOp tmpdir m c cache fl
    rfl
  · intro fileOp randomFileOp tmpdir m c1 c2 cache fl
    rfl
  · intro fileOp randomFileOp tmpdir name m c cache fl hne
    unfold temp_file
    rw [if_neg (by simpa using hne)]

/-- Witness for the C10 theorem at a concrete non-empty name. -/
theorem temp_file_equiv_witness :
    ¬("a".isEmpty) ∧
    temp_file (fun p _ _ _ _ => Except.ok p.length) (fun _ _ _ _ => Except.ok 0)
        "/tmp" "a" 0 Creation.open_existing 0 0 =
      (fun p _ _ _ _ => Except.ok (p.length : Nat)) (pathJoin "/tmp" "a") 0
        Creation.open_existing 0 0 :=
  ⟨by decide,
   temp_file_equiv.2.2 (fun p _ _ _ _ => Except.ok p.length) (fun _ _ _ _ => Except.ok 0)
     "/tmp" "a" 0 Creation.open_existing 0 0 (by decide)⟩
